import Mathlib

/-!
Verification of the resume text-extraction pipeline of the ATS repository
(`src/ATS/src/pages/JobDetails.tsx`).

The JavaScript/TypeScript source is shallowly embedded: each source function
becomes a Lean definition over `String` / `List Char`; asynchronous calls to
external collaborators (FileReader, Tesseract worker, mammoth, the AI
enhancement endpoint) are modelled by passing their outcome explicitly as an
`Except` / outcome value, so that the control flow of the source (its
`try`/`catch` nesting and fallback chains) is captured as a total function of
those outcomes.

Machine-level notes on the embedding:
- JS strings are sequences of UTF-16 code units; we model them as Lean
  `String`/`List Char` (sequences of scalar values).  None of the verified
  claims depends on surrogate-pair behaviour.
- `String.prototype.toLowerCase` is modelled by `Char.toLower` (ASCII case
  folding), which agrees with the source on the ASCII file names and
  extensions the dispatch logic compares against.
- `new Date(...).toLocaleString()` is locale-dependent formatting of the
  `lastModified` timestamp; we model the already-formatted string as a field
  of the uploaded file.
-/

namespace ATS

/-- The regex `/[\x00-\x1F\x7F-\x9F]/` of `sanitizeText` (JobDetails.tsx:169):
control characters.  Note the range `\x00-\x1F` contains TAB (0x09), LF (0x0A)
and CR (0x0D). -/
def isCtrlChar (c : Char) : Bool :=
  c.toNat ≤ 0x1F || (0x7F ≤ c.toNat && c.toNat ≤ 0x9F)

/-- The character class `\s` of ECMAScript regular expressions, which is also
exactly the set trimmed by `String.prototype.trim`: WhiteSpace
(TAB, VT, FF, SP, NBSP, ZWNBSP and the Unicode `Space_Separator` category)
together with LineTerminator (LF, CR, LS, PS). -/
def isJsSpace (c : Char) : Bool :=
  c == ' ' || c == '\t' || c == '\n' || c == '\u000B' || c == '\u000C' ||
  c == '\r' || c == '\u00A0' || c == '\u1680' ||
  ('\u2000' ≤ c && c ≤ '\u200A') ||
  c == '\u2028' || c == '\u2029' || c == '\u202F' || c == '\u205F' ||
  c == '\u3000' || c == '\uFEFF'

/-- `.replace(/[\x00-\x1F\x7F-\x9F]/g, "")` (JobDetails.tsx:169). -/
def stripCtrl (l : List Char) : List Char :=
  l.filter (fun c => !(isCtrlChar c))

/-- `.replace(/\t/g, " ")` (JobDetails.tsx:171). -/
def replaceTabs (l : List Char) : List Char :=
  l.map (fun c => if c = '\t' then ' ' else c)

/-- `.replace(/\s+/g, " ")` (JobDetails.tsx:173): every maximal run of
`\s` characters is replaced by a single space.  The boolean argument records
whether we are inside a whitespace run whose replacement space has already
been emitted. -/
def collapseWsAux : Bool → List Char → List Char
  | _, [] => []
  | inRun, c :: rest =>
    if isJsSpace c then
      if inRun then collapseWsAux true rest
      else ' ' :: collapseWsAux true rest
    else
      c :: collapseWsAux false rest

/-- `.replace(/\s+/g, " ")` applied to a whole string (no run in progress). -/
def collapseWs (l : List Char) : List Char := collapseWsAux false l

/-- `sanitizeText` (JobDetails.tsx:162-177) on the character list of the
input: strip control characters, then replace tabs by spaces, then collapse
whitespace runs, then `.substring(0, 100000)`. -/
def sanitizeList (l : List Char) : List Char :=
  (collapseWs (replaceTabs (stripCtrl l))).take 100000

/-- `sanitizeText` (JobDetails.tsx:162-177), including the
`if (!text) return ""` guard for the empty (falsy) string. -/
def sanitizeText (s : String) : String :=
  if s = "" then "" else ⟨sanitizeList s.data⟩

/-- `String.prototype.trim()` on a character list: drop `\s` characters from
both ends. -/
def jsTrimList (l : List Char) : List Char :=
  ((l.dropWhile isJsSpace).reverse.dropWhile isJsSpace).reverse

/-- `String.prototype.trim()` as used in `extractTextFromPdf`
(JobDetails.tsx:288). -/
def trimJs (s : String) : String := ⟨jsTrimList s.data⟩

/-- Typed failures of the extraction steps (the `Error`s thrown by the source
functions): the `PDF_BINARY_DATA` rejection of `extractTextFromTextFile`
(JobDetails.tsx:194), a `FileReader` error (JobDetails.tsx:205), an OCR
engine error rethrown at JobDetails.tsx:264, and a mammoth conversion error
rethrown at JobDetails.tsx:372. -/
inductive ExtractErr where
  | pdfBinaryData
  | readError
  | ocrFailure
  | conversionError
deriving DecidableEq

/-- Outcome of one `fetch` to the AI enhancement endpoint
(JobDetails.tsx:454-475): `httpError` is a non-ok HTTP response
(`response.ok` false), `fetchError` is a thrown exception (network failure,
timeout, unparseable JSON body), and `ok r` is an ok response whose parsed
`data.response` field is `r` (`none` models a missing/undefined field). -/
inductive AiOutcome where
  | httpError
  | fetchError
  | ok (response : Option String)
deriving DecidableEq

/-- Outcomes of the external collaborators consumed during one orchestration
run: the `FileReader.readAsText` decode (`.error` = the reader fired
`onerror`; `.ok raw` = the decoded character data), the result of the k-th
`worker.recognize` call (the PDF fallback chain can invoke OCR more than
once), the outcome of the k-th AI enhancement `fetch`, and the
`mammoth.extractRawText` result for Word documents. -/
structure ExtractEnv where
  readOutcome : Except Unit String
  ocrOutcomes : Nat → Except Unit String
  aiOutcomes : Nat → AiOutcome
  wordOutcome : Except Unit String

/-- `enhanceOcrResultWithAi` (JobDetails.tsx:449-504).  On an ok response the
completion is accepted only when `enhancedText && enhancedText.length >
text.length / 2` (strictly more than half the input length, rendered as
`text.length < 2 * e.length` over naturals); the accepted completion is
returned through `sanitizeText`.  Every other path — non-ok HTTP status,
thrown fetch/parse error, missing `data.response`, or a too-short completion
— returns `sanitizeText text`. -/
def enhanceOcrResultWithAi (outcome : AiOutcome) (text : String) : String :=
  match outcome with
  | .ok (some e) =>
      if e ≠ "" ∧ text.length < 2 * e.length then sanitizeText e
      else sanitizeText text
  | .ok none => sanitizeText text
  | .httpError => sanitizeText text
  | .fetchError => sanitizeText text

/-- `extractTextFromTextFile` (JobDetails.tsx:180-212): a reader error
rejects with `readError`; decoded content starting with the PDF signature
`%PDF-` rejects with `pdfBinaryData`; otherwise the sanitized text is
resolved. -/
def extractTextFromTextFile (readOutcome : Except Unit String) :
    Except ExtractErr String :=
  match readOutcome with
  | .error _ => .error .readError
  | .ok text =>
      if "%PDF-".data.isPrefixOf text.data then .error .pdfBinaryData
      else .ok (sanitizeText text)

/-- `extractTextFromPdfWithOcr` (JobDetails.tsx:215-276): the whole file is
submitted to a single `worker.recognize` call; if recognition throws, the
error is rethrown (after worker cleanup), otherwise the recognized text is
passed through `enhanceOcrResultWithAi` and returned. -/
def extractTextFromPdfWithOcr (ocrOutcome : Except Unit String)
    (ai : AiOutcome) : Except ExtractErr String :=
  match ocrOutcome with
  | .error _ => .error .ocrFailure
  | .ok t => .ok (enhanceOcrResultWithAi ai t)

/-- The k-th OCR invocation of one `extractTextFromPdf` run, consuming the
k-th recognize outcome and the k-th AI outcome of the environment. -/
def ocrAttempt (env : ExtractEnv) (k : Nat) : Except ExtractErr String :=
  extractTextFromPdfWithOcr (env.ocrOutcomes k) (env.aiOutcomes k)

/-- `try a catch return b`: the result of `a`, falling back to `b` when `a`
throws. -/
def orFirst (a b : Except ExtractErr String) : Except ExtractErr String :=
  match a with
  | .ok t => .ok t
  | .error _ => b

/-- `extractTextFromPdf` (JobDetails.tsx:279-314).  The nested `try`/`catch`
of the source linearizes to the following fallback chains:
- direct read succeeds and `textResult && textResult.trim().length > 100`
  (JobDetails.tsx:288): the direct text is returned, no OCR;
- direct read succeeds but is insufficient (JobDetails.tsx:297): OCR is
  called inside the inner `try`; if it throws, the inner `catch` calls OCR
  again (both its branches, JobDetails.tsx:300-307, make the same call); if
  that throws, the outer `catch` (JobDetails.tsx:312) calls OCR a third
  time — three attempts in all;
- direct read throws (`PDF_BINARY_DATA` or a reader error): the inner
  `catch` calls OCR; if it throws, the outer `catch` calls OCR again — two
  attempts in all. -/
def extractTextFromPdf (env : ExtractEnv) : Except ExtractErr String :=
  match extractTextFromTextFile env.readOutcome with
  | .ok textResult =>
      if textResult ≠ "" ∧ 100 < (trimJs textResult).length then .ok textResult
      else orFirst (ocrAttempt env 0) (orFirst (ocrAttempt env 1) (ocrAttempt env 2))
  | .error _ => orFirst (ocrAttempt env 0) (ocrAttempt env 1)

/-- `extractTextFromWordDocument` (JobDetails.tsx:317-376): a mammoth (or
buffer-read) failure is rethrown as a conversion error; on success, text of
length `> 100` is passed through `enhanceOcrResultWithAi` (an enhancement
failure keeps the pre-enhancement text, which the model's total `enhance`
already guarantees), and the result is sanitized. -/
def extractTextFromWordDocument (env : ExtractEnv) : Except ExtractErr String :=
  match env.wordOutcome with
  | .error _ => .error .conversionError
  | .ok text =>
      let finalText :=
        if text ≠ "" ∧ 100 < text.length then
          enhanceOcrResultWithAi (env.aiOutcomes 0) text
        else text
      .ok (sanitizeText finalText)

/-- The uploaded file's metadata as consumed by `handleFileChange` and the
fallback placeholder (JobDetails.tsx:379-446): name, declared MIME type,
size in bytes, and the `toLocaleString()` rendering of its last-modified
timestamp (modelled as the already-formatted string). -/
structure UploadedFile where
  name : String
  mimeType : String
  size : Nat
  lastModified : String

/-- The PDF test of JobDetails.tsx:389-391: declared MIME type
`application/pdf`, or a lower-cased name ending in `.pdf`. -/
def isPdfFile (f : UploadedFile) : Bool :=
  f.mimeType == "application/pdf" ||
  ".pdf".data.isSuffixOf (f.name.data.map Char.toLower)

/-- The Word-document test of JobDetails.tsx:393-398: the two Office MIME
types, or a lower-cased name ending in `.docx` or `.doc`. -/
def isWordDocFile (f : UploadedFile) : Bool :=
  f.mimeType == "application/vnd.openxmlformats-officedocument.wordprocessingml.document" ||
  f.mimeType == "application/msword" ||
  ".docx".data.isSuffixOf (f.name.data.map Char.toLower) ||
  ".doc".data.isSuffixOf (f.name.data.map Char.toLower)

/-- The plain-text test of JobDetails.tsx:415: MIME `text/plain` or a name
ending in `.txt` (the source does not lower-case the name here). -/
def isTextFileType (f : UploadedFile) : Bool :=
  f.mimeType == "text/plain" || ".txt".data.isSuffixOf f.name.data

/-- The method tag assigned by the dispatch of JobDetails.tsx:408-421 before
the chosen chain runs.  Note the source never assigns the tag `"ocr"`: a PDF
keeps `"pdf_extraction"` even when the OCR fallback produces the text, and an
unrecognized type is tagged `"unknown_file"`. -/
def dispatchMethodTag (f : UploadedFile) : String :=
  if isPdfFile f then "pdf_extraction"
  else if isWordDocFile f then "word_document"
  else if isTextFileType f then "text_file"
  else "unknown_file"

/-- The extraction chain selected by the dispatch of
JobDetails.tsx:408-421; both the `text/plain` branch and the
unrecognized-type branch call `extractTextFromTextFile`. -/
def selectedChain (f : UploadedFile) (env : ExtractEnv) :
    Except ExtractErr String :=
  if isPdfFile f then extractTextFromPdf env
  else if isWordDocFile f then extractTextFromWordDocument env
  else extractTextFromTextFile env.readOutcome

/-- The closing advice block of the fallback placeholder
(JobDetails.tsx:440). -/
def fallbackNotice : String :=
  "\n\n[The file content could not be automatically extracted. Please try a different file format (like .txt) or ensure the file is not corrupted or password protected.]"

/-- The placeholder text synthesized by the `catch` of `handleFileChange`
(JobDetails.tsx:433-440).  `Math.round(file.size / 1024)` is
`⌊size/1024 + 1/2⌋ = (size + 512) / 1024` over naturals. -/
def fallbackText (f : UploadedFile) : String :=
  "Could not extract text from " ++ f.name ++ " (" ++
  (if f.mimeType = "" then "unknown type" else f.mimeType) ++
  ")\n        \nFile size: " ++ toString ((f.size + 512) / 1024) ++
  " KB\nLast modified: " ++ f.lastModified ++ fallbackNotice

/-- The result handed to the persistence boundary: the extracted text, the
method tag, and the PDF flag (`resumeText`, `extractionMethod`, `isPdfFile`
of the source component state). -/
structure ExtractionResult where
  text : String
  method : String
  isPdf : Bool
deriving DecidableEq

/-- `handleFileChange` (JobDetails.tsx:379-446): a file over
`10 * 1024 * 1024` bytes is rejected before any extraction (`none`); the
selected chain's success becomes the result with the dispatch method tag;
any chain failure is caught and becomes the `fallbackText` placeholder with
method `"failed"`.  The PDF flag is set from `isPdfFile` in both cases. -/
def handleFileChange (f : UploadedFile) (env : ExtractEnv) :
    Option ExtractionResult :=
  if 10 * 1024 * 1024 < f.size then none
  else
    match selectedChain f env with
    | .ok text => some ⟨text, dispatchMethodTag f, isPdfFile f⟩
    | .error _ => some ⟨fallbackText f, "failed", isPdfFile f⟩

/-- `handleSubmit` persists `text_extraction_method: extractionMethod ||
"unknown"` (JobDetails.tsx:617): the empty (falsy) string becomes
`"unknown"`, every other tag is stored as is. -/
def persistedMethod (m : String) : String :=
  if m = "" then "unknown" else m

/-- Model of the single `worker.recognize(fileUrl)` call of
`extractTextFromPdfWithOcr` (JobDetails.tsx:247) on a multi-page file: the
source passes the whole file and applies no page slicing or page cap before
or after the call, so the recognized text covers every page of the submitted
file (modelled as the concatenation of the per-page recognition results). -/
def tesseractRecognize (pages : List String) : String :=
  String.join pages

/-- `noAdjWs l` states that `l` has no two adjacent `\s` characters — the
shape of any output of `.replace(/\s+/g, " ")`. -/
def noAdjWs : List Char → Bool
  | [] => true
  | [_] => true
  | a :: b :: rest => (!(isJsSpace a && isJsSpace b)) && noAdjWs (b :: rest)

/-! ### Concrete inputs used by the claim witnesses and counterexamples -/

/-- A scanned PDF: correct MIME type, and the plain-text read of its bytes
yields the `%PDF-` binary signature. -/
def scanPdfFile : UploadedFile :=
  ⟨"scan.pdf", "application/pdf", 2048, "1/1/2025, 10:00:00 AM"⟩

/-- Collaborator outcomes for `scanPdfFile`: the text read decodes the raw
PDF binary, OCR recognition succeeds, the AI endpoint is unreachable. -/
def scanPdfEnv : ExtractEnv :=
  ⟨.ok "%PDF-1.4 streamdata", fun _ => .ok "John Smith Senior Engineer",
    fun _ => .fetchError, .error ()⟩

/-- A direct-extraction result of exactly 100 characters. -/
def directText100 : String := String.mk (List.replicate 100 'a')

/-- A direct-extraction result of 101 characters. -/
def directText101 : String := String.mk (List.replicate 101 'a')

/-- Outcomes where the direct read yields exactly 100 characters and the OCR
fallback succeeds with a distinguishable text. -/
def pdfEnv100 : ExtractEnv :=
  ⟨.ok directText100, fun _ => .ok "OCR FALLBACK OUTPUT TEXT",
    fun _ => .fetchError, .error ()⟩

/-- Outcomes where the direct read yields 101 characters. -/
def pdfEnv101 : ExtractEnv :=
  ⟨.ok directText101, fun _ => .ok "OCR FALLBACK OUTPUT TEXT",
    fun _ => .fetchError, .error ()⟩

/-- A corrupt Word document (the structural conversion throws). -/
def corruptDocFile : UploadedFile :=
  ⟨"resume.docx", "application/msword", 2048, "3/2/2025, 9:00:00 AM"⟩

/-- Collaborator outcomes for `corruptDocFile`: mammoth fails on the invalid
ZIP structure. -/
def corruptDocEnv : ExtractEnv :=
  ⟨.ok "stub", fun _ => .error (), fun _ => .fetchError, .error ()⟩

/-- A file of a type the dispatch does not recognize. -/
def unknownTypeFile : UploadedFile :=
  ⟨"resume.rtf", "application/rtf", 4096, "5/5/2025, 1:00:00 PM"⟩

/-- Collaborator outcomes for `unknownTypeFile`: the plain-text fallback read
succeeds. -/
def unknownTypeEnv : ExtractEnv :=
  ⟨.ok "hello resume content here", fun _ => .error (), fun _ => .fetchError,
    .error ()⟩

/-- An ordinary plain-text resume file. -/
def plainTextFile : UploadedFile :=
  ⟨"resume.txt", "text/plain", 1024, "6/6/2025, 2:00:00 PM"⟩

/-- Collaborator outcomes for `plainTextFile`: the text read succeeds. -/
def plainTextEnv : ExtractEnv :=
  ⟨.ok "hello plain resume text", fun _ => .error (), fun _ => .fetchError,
    .error ()⟩

/-- The per-page recognition results of a synthetic 8-page PDF. -/
def eightPages : List String :=
  ["Page1 ", "Page2 ", "Page3 ", "Page4 ", "Page5 ", "Page6 ", "Page7 ", "Page8 "]

/-! ### Properties of the sanitizer -/

/-- Two strings with the same character data are equal. -/
theorem string_data_ext {s t : String} (h : s.data = t.data) : s = t := by
  cases s; cases t; exact congrArg String.mk h

/-- String concatenation concatenates the character data. -/
theorem string_data_append (s t : String) : (s ++ t).data = s.data ++ t.data := rfl

/-- String concatenation is associative. -/
theorem string_append_assoc (a b c : String) : (a ++ b) ++ c = a ++ (b ++ c) :=
  string_data_ext (by simp [string_data_append])

theorem noAdjWs_tail {a : Char} {l : List Char} (h : noAdjWs (a :: l) = true) :
    noAdjWs l = true := by
  cases l with
  | nil => rfl
  | cons b rest =>
    have h' : ((!(isJsSpace a && isJsSpace b)) && noAdjWs (b :: rest)) = true := h
    exact (Bool.and_eq_true _ _ ▸ h').2

theorem noAdjWs_pair {a b : Char} {l : List Char}
    (h : noAdjWs (a :: b :: l) = true) : (isJsSpace a && isJsSpace b) = false := by
  have h' : ((!(isJsSpace a && isJsSpace b)) && noAdjWs (b :: l)) = true := h
  have hn := (Bool.and_eq_true _ _ ▸ h').1
  cases hab : (isJsSpace a && isJsSpace b) with
  | false => rfl
  | true =>
    rw [hab] at hn
    exact absurd hn (by decide)

/-- Every character of `collapseWsAux b l` is a space or a character of `l`. -/
theorem mem_collapseWsAux {c : Char} :
    ∀ (l : List Char) (b : Bool), c ∈ collapseWsAux b l → c = ' ' ∨ c ∈ l := by
  intro l
  induction l with
  | nil => intro b h; simp [collapseWsAux] at h
  | cons a rest ih =>
    intro b h
    by_cases hs : isJsSpace a
    · cases b with
      | true =>
        simp [collapseWsAux, hs] at h
        rcases ih true h with h' | h'
        · exact Or.inl h'
        · exact Or.inr (List.mem_cons_of_mem _ h')
      | false =>
        simp [collapseWsAux, hs] at h
        rcases h with h | h
        · exact Or.inl h
        · rcases ih true h with h' | h'
          · exact Or.inl h'
          · exact Or.inr (List.mem_cons_of_mem _ h')
    · simp [collapseWsAux, hs] at h
      rcases h with h | h
      · exact Or.inr (by simp [h])
      · rcases ih false h with h' | h'
        · exact Or.inl h'
        · exact Or.inr (List.mem_cons_of_mem _ h')

/-- Every `\s` character of `collapseWsAux b l` is the plain space. -/
theorem collapseWsAux_space_eq {c : Char} :
    ∀ (l : List Char) (b : Bool), c ∈ collapseWsAux b l → isJsSpace c = true → c = ' ' := by
  intro l
  induction l with
  | nil => intro b h; simp [collapseWsAux] at h
  | cons a rest ih =>
    intro b h hc
    by_cases hs : isJsSpace a
    · cases b with
      | true =>
        simp [collapseWsAux, hs] at h
        exact ih true h hc
      | false =>
        simp [collapseWsAux, hs] at h
        rcases h with h | h
        · exact h
        · exact ih true h hc
    · simp [collapseWsAux, hs] at h
      rcases h with h | h
      · subst h; simp [hc] at hs
      · exact ih false h hc

/-- While inside a run (`inRun = true`), `collapseWsAux` never emits a `\s`
character first: the head of its output is not whitespace. -/
theorem collapseWsAux_true_head :
    ∀ (l : List Char) (c : Char), (collapseWsAux true l).head? = some c →
      isJsSpace c = false := by
  intro l
  induction l with
  | nil => intro c h; simp [collapseWsAux] at h
  | cons a rest ih =>
    intro c h
    by_cases hs : isJsSpace a
    · simp only [show collapseWsAux true (a :: rest) = collapseWsAux true rest from by
        simp [collapseWsAux, hs]] at h
      exact ih c h
    · simp only [show collapseWsAux true (a :: rest) = a :: collapseWsAux false rest from by
        simp [collapseWsAux, hs], List.head?_cons, Option.some.injEq] at h
      subst h
      simpa using hs

/-- The output of `collapseWsAux` has no two adjacent `\s` characters. -/
theorem noAdjWs_collapseWsAux :
    ∀ (l : List Char) (b : Bool), noAdjWs (collapseWsAux b l) = true := by
  intro l
  induction l with
  | nil => intro b; rfl
  | cons a rest ih =>
    intro b
    by_cases hs : isJsSpace a
    · cases b with
      | true => simpa only [collapseWsAux, hs, if_true] using ih true
      | false =>
        have e : collapseWsAux false (a :: rest) = ' ' :: collapseWsAux true rest := by
          simp [collapseWsAux, hs]
        rw [e]
        cases hX : collapseWsAux true rest with
        | nil => rfl
        | cons d t =>
          have hd : isJsSpace d = false :=
            collapseWsAux_true_head rest d (by rw [hX]; rfl)
          have ht : noAdjWs (d :: t) = true := by rw [← hX]; exact ih true
          simp [noAdjWs, hd, ht]
    · have e : collapseWsAux b (a :: rest) = a :: collapseWsAux false rest := by
        cases b <;> simp [collapseWsAux, hs]
      rw [e]
      cases hX : collapseWsAux false rest with
      | nil => rfl
      | cons d t =>
        have ht : noAdjWs (d :: t) = true := by rw [← hX]; exact ih false
        have hs' : isJsSpace a = false := by simpa using hs
        simp [noAdjWs, hs', ht]

/-- When the head of `l` is not whitespace, the run flag is irrelevant. -/
theorem collapseWsAux_true_of_head (l : List Char)
    (h : ∀ c, l.head? = some c → isJsSpace c = false) :
    collapseWsAux true l = collapseWsAux false l := by
  cases l with
  | nil => rfl
  | cons a rest =>
    have := h a rfl
    simp [collapseWsAux, this]

/-- `collapseWsAux false` fixes any list whose `\s` characters are all plain
spaces and which has no two adjacent `\s` characters. -/
theorem collapseWsAux_eq_self :
    ∀ l : List Char, (∀ c ∈ l, isJsSpace c = true → c = ' ') →
      noAdjWs l = true → collapseWsAux false l = l := by
  intro l
  induction l with
  | nil => intro _ _; rfl
  | cons a rest ih =>
    intro hsp hadj
    have hsp' : ∀ c ∈ rest, isJsSpace c = true → c = ' ' :=
      fun c hc => hsp c (List.mem_cons_of_mem _ hc)
    have hrest : collapseWsAux false rest = rest := ih hsp' (noAdjWs_tail hadj)
    by_cases hs : isJsSpace a
    · have ha : a = ' ' := hsp a (List.mem_cons_self _ _) hs
      have e : collapseWsAux false (a :: rest) = ' ' :: collapseWsAux true rest := by
        simp [collapseWsAux, hs]
      have hhead : ∀ c, rest.head? = some c → isJsSpace c = false := by
        intro c hc
        cases rest with
        | nil => simp at hc
        | cons d t =>
          simp only [List.head?_cons, Option.some.injEq] at hc
          subst hc
          have := noAdjWs_pair hadj
          rcases Bool.and_eq_false_iff.mp this with h' | h'
          · simp [h'] at hs
          · exact h'
      rw [e, collapseWsAux_true_of_head rest hhead, hrest, ha]
    · have e : collapseWsAux false (a :: rest) = a :: collapseWsAux false rest := by
        simp [collapseWsAux, hs]
      rw [e, hrest]

/-- Truncation preserves the no-adjacent-whitespace shape. -/
theorem noAdjWs_take :
    ∀ (l : List Char) (n : Nat), noAdjWs l = true → noAdjWs (l.take n) = true := by
  intro l
  induction l with
  | nil => intro n _; simp [noAdjWs]
  | cons a rest ih =>
    intro n h
    cases n with
    | zero => rfl
    | succ m =>
      cases rest with
      | nil => simp [List.take, noAdjWs]
      | cons d t =>
        cases m with
        | zero => rfl
        | succ k =>
          have h1 := noAdjWs_pair h
          have h2 : noAdjWs ((d :: t).take (k + 1)) = true := ih (k + 1) (noAdjWs_tail h)
          have e2 : (d :: t).take (k + 1) = d :: t.take k := rfl
          rw [e2] at h2
          calc noAdjWs ((a :: d :: t).take (k + 1 + 1))
              = ((!(isJsSpace a && isJsSpace d)) && noAdjWs (d :: t.take k)) := rfl
            _ = true := by rw [h1, h2]; rfl

/-- No character of `sanitizeList l` is a control character: the strip pass
removes them, the tab pass and the collapse pass only introduce plain
spaces, and truncation only drops characters. -/
theorem sanitizeList_not_ctrl {c : Char} {l : List Char}
    (h : c ∈ sanitizeList l) : isCtrlChar c = false := by
  have h1 : c ∈ collapseWs (replaceTabs (stripCtrl l)) :=
    List.take_subset _ _ h
  rcases mem_collapseWsAux _ _ h1 with hc | h2
  · subst hc; rfl
  · rcases List.mem_map.mp h2 with ⟨a, ha, hac⟩
    by_cases ht : a = '\t'
    · simp [ht] at hac
      subst hac; rfl
    · simp [ht] at hac
      subst hac
      have := (List.mem_filter.mp ha).2
      simpa using this

/-- No character of `sanitizeList l` is a tab (the tab is a control
character, stripped by the first pass). -/
theorem sanitizeList_not_tab {c : Char} {l : List Char}
    (h : c ∈ sanitizeList l) : c ≠ '\t' := by
  intro hc
  subst hc
  have := sanitizeList_not_ctrl h
  simp [isCtrlChar] at this

/-- `substring(0, 100000)` bounds the sanitized length. -/
theorem sanitizeList_length_le (l : List Char) :
    (sanitizeList l).length ≤ 100000 := by
  simp [sanitizeList]

theorem sanitizeList_space_eq {c : Char} {l : List Char}
    (h : c ∈ sanitizeList l) (hc : isJsSpace c = true) : c = ' ' :=
  collapseWsAux_space_eq _ false (List.take_subset _ _ h) hc

theorem sanitizeList_noAdjWs (l : List Char) : noAdjWs (sanitizeList l) = true :=
  noAdjWs_take _ _ (noAdjWs_collapseWsAux _ false)

/-- A list with no tabs is fixed by the tab-replacement pass. -/
theorem replaceTabs_eq_self {l : List Char} (h : ∀ c ∈ l, c ≠ '\t') :
    replaceTabs l = l := by
  induction l with
  | nil => rfl
  | cons a rest ih =>
    have ha : a ≠ '\t' := h a (List.mem_cons_self _ _)
    have : replaceTabs (a :: rest) = a :: replaceTabs rest := by
      simp [replaceTabs, ha]
    rw [this, ih fun c hc => h c (List.mem_cons_of_mem _ hc)]

/-- The sanitizer is idempotent: its output contains no control characters
(so the strip pass fixes it), no tabs (so the tab pass fixes it), only plain
single spaces as whitespace (so the collapse pass fixes it), and is already
within the length bound (so truncation fixes it). -/
theorem sanitizeList_idem (l : List Char) :
    sanitizeList (sanitizeList l) = sanitizeList l := by
  have h1 : stripCtrl (sanitizeList l) = sanitizeList l :=
    List.filter_eq_self.mpr fun a ha => by simp [sanitizeList_not_ctrl ha]
  have h2 : replaceTabs (sanitizeList l) = sanitizeList l :=
    replaceTabs_eq_self fun c hc => sanitizeList_not_tab hc
  have h3 : collapseWs (sanitizeList l) = sanitizeList l :=
    collapseWsAux_eq_self _ (fun c hc => sanitizeList_space_eq hc)
      (sanitizeList_noAdjWs l)
  have h4 : (sanitizeList l).take 100000 = sanitizeList l :=
    List.take_of_length_le (sanitizeList_length_le l)
  calc sanitizeList (sanitizeList l)
      = (collapseWs (replaceTabs (stripCtrl (sanitizeList l)))).take 100000 := rfl
    _ = sanitizeList l := by rw [h1, h2, h3, h4]

/-- The empty-string guard of `sanitizeText` is redundant: on every input the
result is the sanitized character data. -/
theorem sanitizeText_data (s : String) :
    (sanitizeText s).data = sanitizeList s.data := by
  by_cases h : s = ""
  · subst h; rfl
  · simp [sanitizeText, h]

theorem sanitizeText_eq_mk (s : String) :
    sanitizeText s = ⟨sanitizeList s.data⟩ :=
  string_data_ext (sanitizeText_data s)

/-- Tabs are already removed by the control-character strip, so removing them
from the input beforehand does not change the strip's output. -/
theorem stripCtrl_filter_tab (l : List Char) :
    stripCtrl (l.filter (fun c => !(c == '\t'))) = stripCtrl l := by
  induction l with
  | nil => rfl
  | cons a rest ih =>
    by_cases ht : a = '\t'
    · subst ht
      have h1 : isCtrlChar '\t' = true := rfl
      simp [stripCtrl, List.filter_cons, h1] at ih ⊢
      exact ih
    · have h2 : ((a == '\t') : Bool) = false := by simpa using ht
      simp [stripCtrl, List.filter_cons, h2] at ih ⊢
      by_cases hc : isCtrlChar a
      · simp [hc, ih]
      · simp [hc, ih]

/-- A character list none of whose members equals `c` does not contain `c`. -/
theorem contains_eq_false_of_ne {l : List Char} {c : Char}
    (h : ∀ x ∈ l, x ≠ c) : l.contains c = false := by
  induction l with
  | nil => rfl
  | cons a rest ih =>
    have ha : (a == c) = false := by
      have := h a (List.mem_cons_self _ _)
      simpa using this
    calc (a :: rest).contains c = ((c == a) || rest.contains c) := rfl
      _ = false := by
          rw [ih fun x hx => h x (List.mem_cons_of_mem _ hx)]
          have : (c == a) = false := by
            have hne : a ≠ c := by simpa using ha
            simpa using fun hca => (hne hca.symm)
          rw [this]
          rfl

/-! ### Claim theorems -/

/-- **C4, counterexample.**  The claim states that a tab separating two
non-whitespace characters appears as exactly one space in the sanitized
output.  On the source it is false: the control-character strip
(`[\x00-\x1F\x7F-\x9F]`, which contains TAB 0x09) runs before the
tab-to-space replacement, so `sanitizeText "a\tb"` is `"ab"`, not
`"a b"`. -/
theorem claim4_tab_between_words_deleted :
    sanitizeText "a\tb" = "ab" ∧ ((sanitizeText "a\tb") == "a b") = false :=
  ⟨rfl, by decide⟩

/-- **C4, amended.**  Tabs are deleted outright, not collapsed to spaces:
removing every tab from the input before sanitizing yields the same output
(tabs have no effect at all on the result), and the sanitized output never
contains a tab. -/
theorem claim4_tabs_removed_outright (s : String) :
    sanitizeText s = sanitizeText ⟨s.data.filter (fun c => !(c == '\t'))⟩ ∧
    (sanitizeText s).data.contains '\t' = false := by
  constructor
  · apply string_data_ext
    rw [sanitizeText_data, sanitizeText_data]
    show sanitizeList s.data = sanitizeList (s.data.filter fun c => !(c == '\t'))
    unfold sanitizeList collapseWs
    rw [stripCtrl_filter_tab]
  · exact contains_eq_false_of_ne fun x hx =>
      sanitizeList_not_tab (by rwa [sanitizeText_data] at hx)

/-- **C7.**  The sanitizer is idempotent: `sanitize(sanitize(x)) ==
sanitize(x)` for all strings `x`. -/
theorem claim7_sanitize_idempotent (s : String) :
    sanitizeText (sanitizeText s) = sanitizeText s := by
  apply string_data_ext
  rw [sanitizeText_data, sanitizeText_data, sanitizeList_idem]

/-- **C8.**  For every string `x`, `sanitize(x)` has length at most 100000
and every character of `sanitize(x)` is neither a control character (the
ranges `\x00-\x1F`, `\x7F-\x9F`) nor a raw tab. -/
theorem claim8_sanitize_bounded_no_ctrl_no_tab (s : String) :
    (sanitizeText s).length ≤ 100000 ∧
    (sanitizeText s).data.all (fun c => !(isCtrlChar c) && !(c == '\t')) = true := by
  constructor
  · show (sanitizeText s).data.length ≤ 100000
    rw [sanitizeText_data]
    exact sanitizeList_length_le _
  · apply List.all_eq_true.mpr
    intro c hc
    rw [sanitizeText_data] at hc
    have h1 := sanitizeList_not_ctrl hc
    have h2 := sanitizeList_not_tab hc
    simp [h1, h2]

/-- **C10.**  The control-character strip deletes newline and carriage
return before any whitespace collapsing, so sanitized output never contains
them, and adjacent input lines are concatenated with no separating space:
`"Jane Doe\nSoftware Engineer"` sanitizes to `"Jane DoeSoftware Engineer"`,
not `"Jane Doe Software Engineer"`. -/
theorem claim10_newlines_deleted_concatenates_lines :
    (∀ s : String, (sanitizeText s).data.contains '\n' = false ∧
      (sanitizeText s).data.contains '\r' = false) ∧
    sanitizeText "Jane Doe\nSoftware Engineer" = "Jane DoeSoftware Engineer" := by
  refine ⟨fun s => ⟨?_, ?_⟩, rfl⟩
  · apply contains_eq_false_of_ne
    intro x hx hxe
    subst hxe
    have := sanitizeList_not_ctrl (by rwa [sanitizeText_data] at hx)
    simp [isCtrlChar] at this
  · apply contains_eq_false_of_ne
    intro x hx hxe
    subst hxe
    have := sanitizeList_not_ctrl (by rwa [sanitizeText_data] at hx)
    simp [isCtrlChar] at this

/-- **C3, counterexample.**  The claim states that on any HTTP error the
enhancement client returns the original input text unchanged, and that a
completion of at least half the input's length is accepted.  Both parts fail
on the source: an HTTP error returns `sanitizeText(text)` (here `"a  b"`
comes back as `"a b"`, not unchanged), and a completion of exactly half the
input's length (`"xy"` against `"abcd"`) is rejected because the source
requires `enhancedText.length > text.length / 2` strictly. -/
theorem claim3_failure_returns_sanitized_original :
    enhanceOcrResultWithAi .httpError "a  b" = "a b" ∧
    (("a b" : String) == "a  b") = false ∧
    enhanceOcrResultWithAi (.ok (some "xy")) "abcd" = "abcd" ∧
    (("abcd" : String) == "xy") = false :=
  ⟨rfl, by decide, rfl, by decide⟩

/-- **C3, amended.**  The enhancement client never fails the pipeline: it
always returns a value, namely the sanitized original input on every
HTTP-error / exception / unparseable-response path and on completions that
are not strictly longer than half the input, and the sanitized completion
exactly when the completion is non-empty and strictly longer than half the
input's length. -/
theorem claim3_enhance_fallback_policy (o : AiOutcome) (t : String) :
    enhanceOcrResultWithAi o t = sanitizeText t ∨
    (∃ e, o = .ok (some e) ∧ e ≠ "" ∧ t.length < 2 * e.length ∧
      enhanceOcrResultWithAi o t = sanitizeText e) := by
  cases o with
  | httpError => exact Or.inl rfl
  | fetchError => exact Or.inl rfl
  | ok r =>
    cases r with
    | none => exact Or.inl rfl
    | some e =>
      by_cases hc : e ≠ "" ∧ t.length < 2 * e.length
      · refine Or.inr ⟨e, rfl, hc.1, hc.2, ?_⟩
        show (if e ≠ "" ∧ t.length < 2 * e.length then sanitizeText e
          else sanitizeText t) = sanitizeText e
        rw [if_pos hc]
      · refine Or.inl ?_
        show (if e ≠ "" ∧ t.length < 2 * e.length then sanitizeText e
          else sanitizeText t) = sanitizeText t
        rw [if_neg hc]

/-- **C1** (code bug).  For a scanned PDF whose direct read detects the
`%PDF-` binary signature, the OCR fallback produces the persisted text, yet
the result handed to the persistence boundary carries method tag
`"pdf_extraction"` — the tag set before dispatch at JobDetails.tsx:409 and
never updated; no `setExtractionMethod("ocr")` call exists anywhere in the
source, although the review screen tests `extractionMethod === "ocr"`. -/
theorem claim1_ocr_fallback_keeps_pdf_extraction_tag :
    extractTextFromTextFile scanPdfEnv.readOutcome = .error .pdfBinaryData ∧
    handleFileChange scanPdfFile scanPdfEnv =
      some ⟨"John Smith Senior Engineer", "pdf_extraction", true⟩ ∧
    (("pdf_extraction" : String) == "ocr") = false :=
  ⟨rfl, rfl, by decide⟩

/-- **C2, counterexample.**  The claim states that a direct-extraction
result of exactly 100 characters is returned directly rather than sent to
OCR.  On the source it is false: the guard at JobDetails.tsx:288 is
`textResult.trim().length > 100`, strictly, so a direct result whose trimmed
length is exactly 100 falls through to OCR and the OCR text is returned. -/
theorem claim2_exact_hundred_chars_sent_to_ocr :
    extractTextFromTextFile pdfEnv100.readOutcome = .ok directText100 ∧
    (trimJs directText100).length = 100 ∧
    extractTextFromPdf pdfEnv100 = .ok "OCR FALLBACK OUTPUT TEXT" ∧
    (("OCR FALLBACK OUTPUT TEXT" : String) == directText100) = false :=
  ⟨rfl, by decide, rfl, by decide⟩

/-- **C2, amended.**  When the direct plain-text read of a PDF succeeds, the
orchestrator returns the direct text exactly when its trimmed length is
strictly greater than 100 characters, and otherwise (trimmed length at most
100, in particular exactly 100) falls back to the OCR chain. -/
theorem claim2_direct_return_strictly_above_hundred
    (env : ExtractEnv) (s : String)
    (h : extractTextFromTextFile env.readOutcome = .ok s) :
    (100 < (trimJs s).length → extractTextFromPdf env = .ok s) ∧
    ((trimJs s).length ≤ 100 →
      extractTextFromPdf env =
        orFirst (ocrAttempt env 0) (orFirst (ocrAttempt env 1) (ocrAttempt env 2))) := by
  have e : extractTextFromPdf env =
      if s ≠ "" ∧ 100 < (trimJs s).length then .ok s
      else orFirst (ocrAttempt env 0) (orFirst (ocrAttempt env 1) (ocrAttempt env 2)) := by
    unfold extractTextFromPdf
    rw [h]
  constructor
  · intro hlen
    have hs : s ≠ "" := by
      intro he
      subst he
      exact absurd hlen (by decide)
    rw [e, if_pos ⟨hs, hlen⟩]
  · intro hlen
    rw [e, if_neg (fun hcond => absurd hcond.2 (Nat.not_lt.mpr hlen))]

/-- Witness for the amended C2: a 101-character direct result is returned
directly. -/
theorem claim2_witness :
    extractTextFromTextFile pdfEnv101.readOutcome = .ok directText101 ∧
    100 < (trimJs directText101).length ∧
    extractTextFromPdf pdfEnv101 = .ok directText101 :=
  ⟨rfl, by decide,
    (claim2_direct_return_strictly_above_hundred pdfEnv101 directText101 rfl).1
      (by decide)⟩

/-- **C5.**  When the selected chain exhausts its fallbacks and still throws
(and the file passed the size gate), `handleFileChange` does not raise: it
returns a result with method `"failed"` whose text is the synthesized
placeholder, and that placeholder contains the file's name, its rounded
KB size, and its last-modified timestamp. -/
theorem claim5_never_block_failed_placeholder
    (f : UploadedFile) (env : ExtractEnv) (e : ExtractErr)
    (hsize : f.size ≤ 10 * 1024 * 1024)
    (hchain : selectedChain f env = .error e) :
    handleFileChange f env = some ⟨fallbackText f, "failed", isPdfFile f⟩ ∧
    (∃ p q : String, fallbackText f = p ++ (f.name ++ q)) ∧
    (∃ p q : String, fallbackText f = p ++ (toString ((f.size + 512) / 1024) ++ q)) ∧
    (∃ p q : String, fallbackText f = p ++ (f.lastModified ++ q)) := by
  refine ⟨?_, ?_, ?_, ?_⟩
  · unfold handleFileChange
    rw [if_neg (Nat.not_lt.mpr hsize), hchain]
  · refine ⟨"Could not extract text from ",
      " (" ++ ((if f.mimeType = "" then "unknown type" else f.mimeType) ++
        (")\n        \nFile size: " ++ (toString ((f.size + 512) / 1024) ++
          (" KB\nLast modified: " ++ (f.lastModified ++ fallbackNotice))))), ?_⟩
    apply string_data_ext
    simp [fallbackText, string_data_append, List.append_assoc]
  · refine ⟨"Could not extract text from " ++ (f.name ++ (" (" ++
      ((if f.mimeType = "" then "unknown type" else f.mimeType) ++
        ")\n        \nFile size: "))),
      " KB\nLast modified: " ++ (f.lastModified ++ fallbackNotice), ?_⟩
    apply string_data_ext
    simp [fallbackText, string_data_append, List.append_assoc]
  · refine ⟨"Could not extract text from " ++ (f.name ++ (" (" ++
      ((if f.mimeType = "" then "unknown type" else f.mimeType) ++
        (")\n        \nFile size: " ++ (toString ((f.size + 512) / 1024) ++
          " KB\nLast modified: "))))),
      fallbackNotice, ?_⟩
    apply string_data_ext
    simp [fallbackText, string_data_append, List.append_assoc]

/-- Witness for C5: a corrupt Word document (mammoth throws on the invalid
ZIP structure) yields the `"failed"` placeholder result. -/
theorem claim5_witness :
    selectedChain corruptDocFile corruptDocEnv = .error .conversionError ∧
    handleFileChange corruptDocFile corruptDocEnv =
      some ⟨fallbackText corruptDocFile, "failed", isPdfFile corruptDocFile⟩ :=
  ⟨rfl,
    (claim5_never_block_failed_placeholder corruptDocFile corruptDocEnv
      .conversionError (by decide) rfl).1⟩

/-- **C6** (code bug).  The OCR adapter submits the whole file to one
`worker.recognize` call with no page slicing and no 5-page cap
(JobDetails.tsx:247), so for an 8-page file the returned text reflects all
eight pages: the output contains the content of pages 6-8, contradicting
the documented cap. -/
theorem claim6_ocr_output_reflects_all_pages :
    extractTextFromPdfWithOcr (.ok (tesseractRecognize eightPages)) .fetchError =
      .ok "Page1 Page2 Page3 Page4 Page5 Page6 Page7 Page8 " ∧
    (∃ p q : String, ("Page1 Page2 Page3 Page4 Page5 Page6 Page7 Page8 " : String) =
      p ++ ("Page6 Page7 Page8" ++ q)) :=
  ⟨rfl, ⟨"Page1 Page2 Page3 Page4 Page5 ", " ", rfl⟩⟩

/-- **C9, counterexample.**  The claim states that the persisted method tag
is always one of exactly `text_file`, `word_document`, `pdf_extraction`,
`ocr`, `failed`.  On the source it is false: a file of unrecognized type
whose plain-text fallback succeeds is persisted with tag `"unknown_file"`
(JobDetails.tsx:420), which is not in that set. -/
theorem claim9_unknown_file_tag_persisted :
    (handleFileChange unknownTypeFile unknownTypeEnv).map
        (fun r => persistedMethod r.method) = some "unknown_file" ∧
    (["text_file", "word_document", "pdf_extraction", "ocr", "failed"].contains
        ("unknown_file" : String)) = false :=
  ⟨rfl, by decide⟩

/-- **C9, amended.**  For every submitted file, the persisted method tag is
one of exactly `text_file`, `word_document`, `pdf_extraction`,
`unknown_file`, `failed` (the source never produces `ocr`). -/
theorem claim9_method_tag_actual_set (f : UploadedFile) (env : ExtractEnv)
    (r : ExtractionResult) (h : handleFileChange f env = some r) :
    persistedMethod r.method ∈
      ["text_file", "word_document", "pdf_extraction", "unknown_file", "failed"] := by
  unfold handleFileChange at h
  by_cases hsize : 10 * 1024 * 1024 < f.size
  · rw [if_pos hsize] at h
    exact absurd h (by simp)
  · rw [if_neg hsize] at h
    cases hchain : selectedChain f env with
    | ok text =>
      rw [hchain] at h
      have h' : some (⟨text, dispatchMethodTag f, isPdfFile f⟩ : ExtractionResult) = some r := h
      have hr : r = ⟨text, dispatchMethodTag f, isPdfFile f⟩ := (Option.some.inj h').symm
      subst hr
      show persistedMethod (dispatchMethodTag f) ∈ _
      unfold dispatchMethodTag
      by_cases h1 : isPdfFile f = true
      · rw [if_pos h1]; decide
      · rw [if_neg h1]
        by_cases h2 : isWordDocFile f = true
        · rw [if_pos h2]; decide
        · rw [if_neg h2]
          by_cases h3 : isTextFileType f = true
          · rw [if_pos h3]; decide
          · rw [if_neg h3]; decide
    | error e =>
      rw [hchain] at h
      have h' : some (⟨fallbackText f, "failed", isPdfFile f⟩ : ExtractionResult) = some r := h
      have hr : r = ⟨fallbackText f, "failed", isPdfFile f⟩ := (Option.some.inj h').symm
      subst hr
      show persistedMethod "failed" ∈ _
      decide

/-- Witness for the amended C9: a plain-text file is persisted with tag
`"text_file"`, which is in the actual tag set. -/
theorem claim9_witness :
    handleFileChange plainTextFile plainTextEnv =
      some ⟨"hello plain resume text", "text_file", false⟩ ∧
    persistedMethod
        (ExtractionResult.mk "hello plain resume text" "text_file" false).method ∈
      ["text_file", "word_document", "pdf_extraction", "unknown_file", "failed"] :=
  ⟨rfl,
    claim9_method_tag_actual_set plainTextFile plainTextEnv
      ⟨"hello plain resume text", "text_file", false⟩ rfl⟩

end ATS
